import Mathlib

/-!
# Verification of the `modelo_recomendador` recommendation engine

Shallow embedding of the repository's core logic and proofs about it.

Embedded source files:
* `scripts/training.py` — co-occurrence pivot table and cosine-similarity model;
* `app/src/main.py` — similarity lookup endpoint `recommend`;
* `scripts/training_basket_analysis.py` — inline basket pipeline (quantity sums
  thresholded with `1 if x > 0 else 0`);
* `scripts/training_basket_modularized.py` — modularized basket pipeline
  (`transform_to_basket` uses `astype(bool)`), mlxtend mining wrappers;
* `app/src/main_basket_analysis_recommender.py` — association-rule lookup;
* `scripts/drift_detection.py` — the drift gate `detectar_drift`.

Modelling conventions, fixed once for the whole file:
* Invoice and product identifiers are modelled as `Nat`.  pandas sorts
  `groupby` keys and `pivot_table` row/column labels ascending, which the
  embedding mirrors with `sortedKeys`; only the existence of a decidable
  linear order on the identifiers matters.
* Machine floats never carry more information here than the *order* of the
  quantities they hold.  Cosine-similarity scores within one row `p` are
  compared through the exact integer equivalence
  `cos(p,a) ≥ cos(p,b) ↔ dot(p,a)^2·dot(b,b) ≥ dot(p,b)^2·dot(a,a)`
  (valid because every co-occurrence column vector is non-negative, and each
  observed column has a positive self-dot).  Supports, confidences and lifts
  are carried in `ℚ`, where the mlxtend formulas are exact.
* Python's `sorted(key=..., reverse=True)` is stable in descending order; it
  is modelled by `List.insertionSort` with the reflexive "score not below"
  relation, which Mathlib's `insertionSort` realizes stably.
* `pandas.DataFrame.sort_values(by, ascending=False)` computes an ascending
  argsort and reverses the resulting indexer (pandas `core/sorting.py`,
  `nargsort`); with the default quicksort kind numpy falls back to a stable
  insertion sort on small arrays, so on small frames equal keys come out in
  *reversed* row order.  It is modelled as the reverse of a stable ascending
  sort.
* Exceptions become `Except` values; the drift gate's external collaborators
  (Snowflake fetch, parquet storage, the Evidently report) become explicit
  fields of an environment record, one per catch boundary in the source.
-/

/-- One transaction line row, as selected from the warehouse: the fields the
core reads are the invoice number, the product stockcode and the quantity
(`description`, `unitprice` and the date are never inspected by the embedded
code paths). -/
structure TransactionRow where
  invoiceno : Nat
  stockcode : Nat
  quantity : Int
deriving DecidableEq

/-- Sorted distinct key list: how pandas materializes `groupby` keys and
`pivot_table` row/column labels (ascending, duplicates collapsed). -/
def sortedKeys (l : List Nat) : List Nat :=
  List.insertionSort (· ≤ ·) l.dedup

/-- Distinct invoice numbers in ascending order: the row index of the
co-occurrence pivot table and of the basket table. -/
def invoicesOf (rows : List TransactionRow) : List Nat :=
  sortedKeys (rows.map (·.invoiceno))

/-- Distinct stockcodes in ascending order: the column index of the
co-occurrence pivot table and of the basket table. -/
def stockcodesOf (rows : List TransactionRow) : List Nat :=
  sortedKeys (rows.map (·.stockcode))

namespace Training

/-- Cell of `co_ocurrence_matrix` (training.py line 39):
`pivot_table(index="INVOICENO", columns="STOCKCODE", aggfunc="size",
fill_value=0)` — the number of line rows carrying this (invoice, product)
pair, `0` when the pair never occurs. -/
def coocCell (rows : List TransactionRow) (inv code : Nat) : Nat :=
  rows.countP (fun r => r.invoiceno == inv && r.stockcode == code)

/-- Column vector of the co-occurrence matrix for one product: its occurrence
profile across the (sorted) invoice index.  `cosine_similarity
(co_ocurrence_matrix.T)` (training.py line 51) compares these vectors. -/
def colVec (rows : List TransactionRow) (code : Nat) : List Nat :=
  (invoicesOf rows).map (fun inv => coocCell rows inv code)

/-- Dot product of two occurrence profiles. -/
def dotNat (a b : List Nat) : Nat :=
  (a.zip b).foldr (fun p s => p.1 * p.2 + s) 0

/-- Dot product of the column vectors at column positions `i` and `j` of the
trained matrix.  Cosine similarity at `(i,j)` is `dpi i j /
(√(dpi i i)·√(dpi j j))`; the embedding only ever compares such scores. -/
def dpi (rows : List TransactionRow) (i j : Nat) : Nat :=
  dotNat (colVec rows ((stockcodesOf rows).getD i 0))
    (colVec rows ((stockcodesOf rows).getD j 0))

/-- Order on similarity scores inside row `p`: `cos(p,a) ≥ cos(p,b)`.
Because all dot products are non-negative and every observed column has a
positive self-dot, this is exactly the squared cross-multiplied comparison,
free of square roots. -/
def scoreGe (rows : List TransactionRow) (p a b : Nat) : Prop :=
  dpi rows p b ^ 2 * dpi rows a a ≤ dpi rows p a ^ 2 * dpi rows b b

instance (rows : List TransactionRow) (p a b : Nat) :
    Decidable (scoreGe rows p a b) :=
  inferInstanceAs (Decidable (_ ≤ _))

end Training

namespace MainApi

/-- KeyError raised by `co_ocurrence_matrix.columns.get_loc(stockcode)` when
the stockcode is absent from the column index: pandas' not-found failure,
which the route lets propagate to the caller. -/
inductive ApiError where
  | keyNotFound
deriving DecidableEq

/-- `pandas.Index.get_loc`: the position of a label in the column index, or a
key-not-found failure. -/
def getLoc (code : Nat) : List Nat → Option Nat
  | [] => none
  | c :: cs => if c = code then some 0 else (getLoc code cs).map (· + 1)

/-- The `recommend` endpoint of `app/src/main.py` (lines 15–22), identical to
`recommended_products` of training.py (lines 62–68):
look up the column position of the stockcode (KeyError when absent), rank all
column positions by their similarity to it — Python's `sorted(...,
key=lambda x: x[1], reverse=True)` is a stable descending sort on the score —
slice `[1:n+1]`, and map the surviving positions back to stockcodes. -/
def recommend (rows : List TransactionRow) (stockcode : Nat) (n : Nat) :
    Except ApiError (List Nat) :=
  let cols := stockcodesOf rows
  match getLoc stockcode cols with
  | none => .error .keyNotFound
  | some p =>
    let simScores :=
      List.insertionSort (Training.scoreGe rows p) (List.range cols.length)
    let cut := (simScores.drop 1).take n
    .ok (cut.map (fun i => cols.getD i 0))

end MainApi

/-- Summed quantity of one (invoice, product) group:
`groupby(["INVOICENO", "STOCKCODE"])["QUANTITY"].sum()`, with the
`unstack().fillna(0)` convention that an absent group contributes `0`. -/
def groupSum (rows : List TransactionRow) (inv code : Nat) : Int :=
  ((rows.filter (fun r => r.invoiceno == inv && r.stockcode == code)).map
    (·.quantity)).foldr (· + ·) 0

namespace Mlxtend

/-- Boolean basket table handed to the mlxtend miners: one row per invoice,
one column per product, `cell` telling whether the product counts as present
in the invoice. -/
structure Basket where
  invoices : List Nat
  items : List Nat
  cell : Nat → Nat → Bool

/-- Support of an itemset: the fraction of invoices whose basket row contains
every item of the set. -/
def support (b : Basket) (S : List Nat) : ℚ :=
  ((b.invoices.countP (fun inv => S.all (fun c => b.cell inv c))) : ℚ) /
    (b.invoices.length : ℚ)

/-- Output of `mlxtend.frequent_patterns.fpgrowth(basket, min_support,
use_colnames=True)` as a set of rows: every non-empty itemset whose support
reaches the threshold, paired with its support.  (`fpgrowth` and `apriori`
compute this same table; only their internal traversal differs.)  Itemsets
are canonically represented as sublists of the sorted column index. -/
def fpgrowth (b : Basket) (minSupport : ℚ) : List (List Nat × ℚ) :=
  ((b.items.sublists.filter
    (fun S => !S.isEmpty && decide (minSupport ≤ support b S))).map
    (fun S => (S, support b S)))

/-- Association rule row: the mlxtend columns the repository reads
(`antecedents`, `consequents`, `lift`) plus the `support` and `confidence`
metrics computed alongside them. -/
structure Rule where
  antecedents : List Nat
  consequents : List Nat
  support : ℚ
  confidence : ℚ
  lift : ℚ
deriving DecidableEq

/-- Support lookup in the frequent-itemset table, as mlxtend does when
scoring a rule.  For the support-closed tables `fpgrowth` produces the lookup
always succeeds (anti-monotonicity); the `0` default is unreachable there. -/
def lookupSupport (freq : List (List Nat × ℚ)) (A : List Nat) : ℚ :=
  ((freq.find? (fun p => p.1 == A)).map (·.2)).getD 0

/-- Rules derived from one frequent itemset `S` with support `sS`: every
partition of `S` into a non-empty proper antecedent `A` and the complementary
consequent `S \ A`, scored by `confidence = support(S)/support(A)` and
`lift = confidence/support(consequent)`, retained when the lift metric
reaches the threshold. -/
def rulesOfItemset (freq : List (List Nat × ℚ)) (minThreshold : ℚ)
    (S : List Nat) (sS : ℚ) : List Rule :=
  (S.sublists.filter (fun A => !A.isEmpty && !(A == S))).filterMap
    (fun A =>
      let C := S.filter (fun c => !(A.contains c))
      let conf := sS / lookupSupport freq A
      let lft := conf / lookupSupport freq C
      if minThreshold ≤ lft then some ⟨A, C, sS, conf, lft⟩ else none)

/-- `mlxtend.frequent_patterns.association_rules(frequent_itemsets,
metric="lift", min_threshold)`: all retained rules of all frequent itemsets.
The repository only ever calls it with the lift metric. -/
def association_rules (freq : List (List Nat × ℚ)) (minThreshold : ℚ) :
    List Rule :=
  (freq.map (fun p => rulesOfItemset freq minThreshold p.1 p.2)).foldr
    (· ++ ·) []

end Mlxtend

namespace BasketAnalysis

/-- The basket table of training_basket_analysis.py (lines 39–40):
`groupby(["INVOICENO","STOCKCODE"])["QUANTITY"].sum().unstack().fillna(0)`
then `applymap(lambda x: 1 if x > 0 else 0)` — a product is present in an
invoice exactly when its summed quantity is positive. -/
def basket (rows : List TransactionRow) : Mlxtend.Basket :=
  ⟨invoicesOf rows, stockcodesOf rows,
    fun inv code => decide (0 < groupSum rows inv code)⟩

end BasketAnalysis

namespace BasketModularized

/-- `transform_to_basket` of training_basket_modularized.py (lines 191–203):
the same grouped quantity sums, but collapsed with `astype(bool)` — a product
is present exactly when its summed quantity is *non-zero*, so a negative sum
also marks presence. -/
def transform_to_basket (rows : List TransactionRow) : Mlxtend.Basket :=
  ⟨invoicesOf rows, stockcodesOf rows,
    fun inv code => decide (groupSum rows inv code ≠ 0)⟩

/-- `generate_frequent_itemsets` (lines 205–216): FP-Growth with the default
minimum support 0.01. -/
def generate_frequent_itemsets (b : Mlxtend.Basket) (minSupport : ℚ) :
    List (List Nat × ℚ) :=
  Mlxtend.fpgrowth b minSupport

/-- `generate_association_rules` (lines 230–242): mlxtend rules with the
default lift metric and threshold 1. -/
def generate_association_rules (freq : List (List Nat × ℚ))
    (minThreshold : ℚ) : List Mlxtend.Rule :=
  Mlxtend.association_rules freq minThreshold

end BasketModularized

namespace BasketApi

/-- `pandas.DataFrame.sort_values(by='lift', ascending=False)` on the rule
frame: pandas argsorts ascending and reverses the indexer (`nargsort`), so
the result is the reverse of a stable ascending sort by lift — on frames
where numpy's small-array insertion sort applies, equal lifts come out in
reversed row order. -/
def sort_values_lift_desc (l : List Mlxtend.Rule) : List Mlxtend.Rule :=
  (List.insertionSort (fun a b : Mlxtend.Rule => a.lift ≤ b.lift) l).reverse

/-- `recommend_association_rules` of
app/src/main_basket_analysis_recommender.py (lines 13–39): keep the rules
whose antecedent set contains the stockcode, rank them by descending lift,
take the first `n`, concatenate their consequent sets (the `extend` loop) and
collapse duplicates (`list(set(...))`; Python's set iteration order is
unspecified, modelled as first-occurrence order — the theorems only use the
result's membership and distinctness). -/
def recommend_association_rules (stockcode : Nat)
    (rules : List Mlxtend.Rule) (n : Nat) : List Nat :=
  let product_rules := rules.filter (fun r => decide (stockcode ∈ r.antecedents))
  let top := (sort_values_lift_desc product_rules).take n
  let recommended_products := (top.map (·.consequents)).foldr (· ++ ·) []
  recommended_products.dedup

/-- The rules whose antecedent set contains the stockcode, in discovery
order: the frame `rules[rules['antecedents'].apply(lambda x: stockcode in x)]`. -/
def matchedRules (stockcode : Nat) (rules : List Mlxtend.Rule) :
    List Mlxtend.Rule :=
  rules.filter (fun r => decide (stockcode ∈ r.antecedents))

/-- The lookup as the specification words it: rank the matching rules
descending by lift with ties kept in discovery order (a stable descending
sort), then take, flatten and deduplicate as the code does.  Written only to
be compared against `recommend_association_rules`. -/
def claimStableLookup (stockcode : Nat) (rules : List Mlxtend.Rule)
    (n : Nat) : List Nat :=
  let product_rules := matchedRules stockcode rules
  let top := (List.insertionSort
    (fun a b : Mlxtend.Rule => b.lift ≤ a.lift) product_rules).take n
  ((top.map (·.consequents)).foldr (· ++ ·) []).dedup

end BasketApi

namespace DriftDetection

/-- Exception class observed by the first `try` block of `detectar_drift`
(scripts/drift_detection.py lines 111–142): a `FileNotFoundError` or any
other exception while fetching and loading the two snapshots. -/
inductive LoadExc where
  | fileNotFound
  | otherExc
deriving DecidableEq

/-- Exception class observed by the report and extraction `try` blocks
(lines 144–191): a `KeyError` or any other exception. -/
inductive StepExc where
  | keyErr
  | otherExc
deriving DecidableEq

/-- Environment of one `detectar_drift` run: the outcome each external
collaborator would produce, one field per catch boundary in the source.
`runReport` folds `Report.run` (outer `Except`) with the `as_dict` /
`["metrics"][0]["result"]["dataset_drift"]` extraction (inner `Except`,
whose success is the dataset-level drift verdict). -/
structure Env (Data : Type) where
  fetch : Except LoadExc Data
  oldFile : Option Data
  newFile : Option Data
  dropOutcome : Data → Data
  runReport : Data → Data → Except StepExc (Except StepExc Bool)

/-- The eight tokens the gate may write to `drift_detected.txt`
(spec §6, drift signal file). -/
def allowedTokens : List String :=
  ["drift_detected", "no_drift", "error: archivo_no_encontrado",
   "error: carga_datos", "error: columna_no_encontrada",
   "error: reporte_drift", "error: clave_no_encontrada",
   "error: procesamiento_reporte"]

/-- `detectar_drift` (scripts/drift_detection.py lines 84–191), returning the
list of tokens written to `drift_detected.txt` in order.  Control flow of the
source: fetch the current data (any failure of the first block maps
`FileNotFoundError` to `archivo_no_encontrado` and anything else to
`carga_datos`); write it to `new_invoice_data.parquet` when
`old_invoice_data.parquet` exists, else to `old_invoice_data.parquet`; read
both parquet files back (a missing file is a `FileNotFoundError`); run the
Evidently report on the two frames with the `Outcome` column dropped
(`errors='ignore'`, so the drop itself never raises); extract the
dataset-level verdict; write the matching token. -/
def detectar_drift {Data : Type} (env : Env Data) : List String :=
  match env.fetch with
  | .error .fileNotFound => ["error: archivo_no_encontrado"]
  | .error .otherExc => ["error: carga_datos"]
  | .ok df =>
    let store : Option Data × Option Data :=
      if env.oldFile.isSome then (env.oldFile, some df) else (some df, env.newFile)
    match store.1, store.2 with
    | none, _ => ["error: archivo_no_encontrado"]
    | some _, none => ["error: archivo_no_encontrado"]
    | some ref, some cur =>
      match env.runReport (env.dropOutcome ref) (env.dropOutcome cur) with
      | .error .keyErr => ["error: columna_no_encontrada"]
      | .error .otherExc => ["error: reporte_drift"]
      | .ok (.error .keyErr) => ["error: clave_no_encontrada"]
      | .ok (.error .otherExc) => ["error: procesamiento_reporte"]
      | .ok (.ok true) => ["drift_detected"]
      | .ok (.ok false) => ["no_drift"]

end DriftDetection

/-! ### Concrete inputs used by counterexamples and witnesses -/

/-- Two line rows of one invoice holding two products once each: the two
co-occurrence columns are identical, so all pairwise cosine scores are `1`. -/
def tiedRows : List TransactionRow :=
  [⟨1, 0, 1⟩, ⟨1, 1, 1⟩]

/-- A single line row with a negative quantity (a return): its grouped
quantity sum is `-1`. -/
def negativeRow : List TransactionRow :=
  [⟨1, 0, -1⟩]

/-- Two invoices each containing products `0` and `1` once: every itemset has
support `1` and the rules `0 → 1` and `1 → 0` both have confidence and
lift `1`. -/
def pairRows : List TransactionRow :=
  [⟨1, 0, 1⟩, ⟨1, 1, 1⟩, ⟨2, 0, 1⟩, ⟨2, 1, 1⟩]

/-- Two rules with antecedent `{5}` and equal lift `2`, discovered in this
order: rule `5 → 7` first, rule `5 → 8` second. -/
def tiedRules : List Mlxtend.Rule :=
  [⟨[5], [7], 1, 1, 2⟩, ⟨[5], [8], 1, 1, 2⟩]

/-- Drift-gate run against a store where the reference snapshot is present
and identical to the fetched data, and the comparator flags drift exactly on
unequal frames. -/
def envIdentical : DriftDetection.Env Nat :=
  ⟨.ok 0, some 0, none, id, fun x y => .ok (.ok (decide (x ≠ y)))⟩

/-- Drift-gate run against an empty store: neither snapshot file exists. -/
def envFreshStore : DriftDetection.Env Nat :=
  ⟨.ok 0, none, none, id, fun x y => .ok (.ok (decide (x ≠ y)))⟩

/-- Drift-gate run where the reference snapshot is missing but a stale
current snapshot file survives from an earlier run, and the comparator flags
drift on the (unequal) pair it is then given. -/
def envStaleCurrent : DriftDetection.Env Nat :=
  ⟨.ok 1, none, some 2, id, fun x y => .ok (.ok (decide (x ≠ y)))⟩

/-! ## Shared lemmas -/

theorem mem_foldr_append {α : Type} (L : List (List α)) (x : α) :
    x ∈ L.foldr (· ++ ·) [] ↔ ∃ l ∈ L, x ∈ l := by
  induction L with
  | nil => simp
  | cons a L ih => simp [ih]

theorem sortedKeys_nodup (l : List Nat) : (sortedKeys l).Nodup :=
  ((List.perm_insertionSort _ _).nodup_iff).2 (List.nodup_dedup l)

theorem getD_inj_of_nodup (l : List Nat) (hl : l.Nodup) (i j : Nat)
    (hi : i < l.length) (hj : j < l.length) (h : l.getD i 0 = l.getD j 0) :
    i = j := by
  have h1 : l.getD i 0 = l[i] := by
    simp [List.getD_eq_getElem?_getD, List.getElem?_eq_getElem hi]
  have h2 : l.getD j 0 = l[j] := by
    simp [List.getD_eq_getElem?_getD, List.getElem?_eq_getElem hj]
  rw [h1, h2] at h
  exact hl.getElem_inj_iff.mp h

theorem MainApi.getLoc_eq_none_iff (code : Nat) (l : List Nat) :
    MainApi.getLoc code l = none ↔ code ∉ l := by
  induction l with
  | nil => simp [MainApi.getLoc]
  | cons c cs ih =>
    by_cases hc : c = code
    · subst hc
      simp [MainApi.getLoc]
    · simp [MainApi.getLoc, hc, Option.map_eq_none', ih, Ne.symm hc]

/-! ## Claims about the similarity lookup -/

/-- C1: a similarity lookup with a stockcode absent from the co-occurrence
matrix's column index fails with the key-not-found error (pandas KeyError
from `Index.get_loc`, the operation's only failure), never succeeding and
never failing differently. -/
theorem MainApi.recommend_unknown_stockcode_fails (rows : List TransactionRow)
    (stockcode n : Nat) (h : stockcode ∉ stockcodesOf rows) :
    MainApi.recommend rows stockcode n = .error .keyNotFound := by
  have hg : MainApi.getLoc stockcode (stockcodesOf rows) = none :=
    (MainApi.getLoc_eq_none_iff _ _).2 h
  simp only [MainApi.recommend, hg]

theorem MainApi.recommend_unknown_stockcode_fails_witness :
    5 ∉ stockcodesOf tiedRows ∧
      MainApi.recommend tiedRows 5 3 = .error .keyNotFound :=
  ⟨by decide, MainApi.recommend_unknown_stockcode_fails tiedRows 5 3 (by decide)⟩

/-- C2: evaluation of the similarity lookup at the failing input.  In
`tiedRows` products `0` and `1` have identical co-occurrence columns, so all
cosine scores in row `1` are `1`; the slice `sim_scores[1:n+1]` drops only the
head of the stable descending sort — position `0` — and the lookup for
product `1` returns product `1` itself, which the claim forbids. -/
theorem MainApi.recommend_returns_self_on_tied_columns :
    1 ∈ stockcodesOf tiedRows ∧
      ∃ l, MainApi.recommend tiedRows 1 1 = Except.ok l ∧ 1 ∈ l :=
  ⟨by decide, [1], rfl, by decide⟩

/-- C9: a similarity lookup for a stockcode present in the column index
succeeds for every count `n` with a list of at most `n` pairwise-distinct
stockcodes, and `n = 0` yields the empty list. -/
theorem MainApi.recommend_present_spec (rows : List TransactionRow)
    (stockcode n : Nat) (h : stockcode ∈ stockcodesOf rows) :
    ∃ l, MainApi.recommend rows stockcode n = Except.ok l ∧ l.Nodup ∧
      l.length ≤ n ∧ (n = 0 → l = []) := by
  obtain ⟨p, hp⟩ : ∃ p, MainApi.getLoc stockcode (stockcodesOf rows) = some p := by
    cases hg : MainApi.getLoc stockcode (stockcodesOf rows) with
    | none => exact absurd h ((MainApi.getLoc_eq_none_iff _ _).1 hg)
    | some p => exact ⟨p, rfl⟩
  have hrec : MainApi.recommend rows stockcode n =
      Except.ok ((((List.insertionSort (Training.scoreGe rows p)
        (List.range (stockcodesOf rows).length)).drop 1).take n).map
          (fun i => (stockcodesOf rows).getD i 0)) := by
    simp only [MainApi.recommend, hp]
  have hperm : List.Perm
      (List.insertionSort (Training.scoreGe rows p)
        (List.range (stockcodesOf rows).length))
      (List.range (stockcodesOf rows).length) :=
    List.perm_insertionSort _ _
  have hsub : List.Sublist
      (((List.insertionSort (Training.scoreGe rows p)
        (List.range (stockcodesOf rows).length)).drop 1).take n)
      (List.insertionSort (Training.scoreGe rows p)
        (List.range (stockcodesOf rows).length)) :=
    (List.take_sublist _ _).trans (List.drop_sublist _ _)
  have hnodupIdx : (((List.insertionSort (Training.scoreGe rows p)
      (List.range (stockcodesOf rows).length)).drop 1).take n).Nodup :=
    (hperm.nodup_iff.2 (List.nodup_range _)).sublist hsub
  have hlt : ∀ i ∈ ((List.insertionSort (Training.scoreGe rows p)
      (List.range (stockcodesOf rows).length)).drop 1).take n,
      i < (stockcodesOf rows).length :=
    fun i hi => List.mem_range.mp (hperm.subset (hsub.subset hi))
  refine ⟨_, hrec, ?_, ?_, ?_⟩
  · exact List.Nodup.map_on
      (fun x hx y hy hxy =>
        getD_inj_of_nodup _ (sortedKeys_nodup _) x y (hlt x hx) (hlt y hy) hxy)
      hnodupIdx
  · simp [List.length_take]
  · intro h0
    subst h0
    simp

theorem MainApi.recommend_present_spec_witness :
    0 ∈ stockcodesOf tiedRows ∧
      ∃ l, MainApi.recommend tiedRows 0 5 = Except.ok l ∧ l.Nodup ∧
        l.length ≤ 5 ∧ (5 = 0 → l = []) :=
  ⟨by decide, MainApi.recommend_present_spec tiedRows 0 5 (by decide)⟩

/-- C3: evaluation of the modularized basket builder at the failing input.
A single line row with quantity `-1` yields a grouped quantity sum of `-1`,
which is not positive, yet `transform_to_basket`'s `astype(bool)` marks the
product as present in the invoice — the claim requires rows with
quantity ≤ 0 never to mark presence. -/
theorem BasketModularized.transform_to_basket_marks_nonpositive_quantity :
    (BasketModularized.transform_to_basket negativeRow).cell 1 0 = true ∧
      groupSum negativeRow 1 0 ≤ 0 := by
  constructor
  · decide
  · decide

/-! ## Claims about the drift gate -/

/-- C4: for every combination of collaborator outcomes — reference or current
snapshot missing, load failure, column-selection failure, report-execution
failure, result-extraction failure, or success — `detectar_drift` terminates
by writing exactly one token to the drift signal file, and that token is one
of the eight enumerated values; no path raises past the gate's boundary. -/
theorem DriftDetection.detectar_drift_writes_one_allowed_token
    {Data : Type} (env : DriftDetection.Env Data) :
    ∃ t, t ∈ DriftDetection.allowedTokens ∧
      DriftDetection.detectar_drift env = [t] := by
  obtain ⟨fetch, oldFile, newFile, dropOutcome, runReport⟩ := env
  cases fetch with
  | error e =>
    cases e
    · exact ⟨"error: archivo_no_encontrado",
        by simp [DriftDetection.allowedTokens], rfl⟩
    · exact ⟨"error: carga_datos",
        by simp [DriftDetection.allowedTokens], rfl⟩
  | ok df =>
    cases oldFile with
    | none =>
      cases newFile with
      | none => exact ⟨"error: archivo_no_encontrado",
          by simp [DriftDetection.allowedTokens], rfl⟩
      | some cur =>
        cases hrun : runReport (dropOutcome df) (dropOutcome cur) with
        | error e =>
          cases e
          · exact ⟨"error: columna_no_encontrada",
              by simp [DriftDetection.allowedTokens],
              by simp [DriftDetection.detectar_drift, hrun]⟩
          · exact ⟨"error: reporte_drift",
              by simp [DriftDetection.allowedTokens],
              by simp [DriftDetection.detectar_drift, hrun]⟩
        | ok inner =>
          cases inner with
          | error e =>
            cases e
            · exact ⟨"error: clave_no_encontrada",
                by simp [DriftDetection.allowedTokens],
                by simp [DriftDetection.detectar_drift, hrun]⟩
            · exact ⟨"error: procesamiento_reporte",
                by simp [DriftDetection.allowedTokens],
                by simp [DriftDetection.detectar_drift, hrun]⟩
          | ok verdict =>
            cases verdict
            · exact ⟨"no_drift",
                by simp [DriftDetection.allowedTokens],
                by simp [DriftDetection.detectar_drift, hrun]⟩
            · exact ⟨"drift_detected",
                by simp [DriftDetection.allowedTokens],
                by simp [DriftDetection.detectar_drift, hrun]⟩
    | some ref =>
      cases hrun : runReport (dropOutcome ref) (dropOutcome df) with
      | error e =>
        cases e
        · exact ⟨"error: columna_no_encontrada",
            by simp [DriftDetection.allowedTokens],
            by simp [DriftDetection.detectar_drift, hrun]⟩
        · exact ⟨"error: reporte_drift",
            by simp [DriftDetection.allowedTokens],
            by simp [DriftDetection.detectar_drift, hrun]⟩
      | ok inner =>
        cases inner with
        | error e =>
          cases e
          · exact ⟨"error: clave_no_encontrada",
              by simp [DriftDetection.allowedTokens],
              by simp [DriftDetection.detectar_drift, hrun]⟩
          · exact ⟨"error: procesamiento_reporte",
              by simp [DriftDetection.allowedTokens],
              by simp [DriftDetection.detectar_drift, hrun]⟩
        | ok verdict =>
          cases verdict
          · exact ⟨"no_drift",
              by simp [DriftDetection.allowedTokens],
              by simp [DriftDetection.detectar_drift, hrun]⟩
          · exact ⟨"drift_detected",
              by simp [DriftDetection.allowedTokens],
              by simp [DriftDetection.detectar_drift, hrun]⟩

theorem DriftDetection.detectar_drift_writes_one_allowed_token_witness :
    ∃ t, t ∈ DriftDetection.allowedTokens ∧
      DriftDetection.detectar_drift envIdentical = [t] :=
  DriftDetection.detectar_drift_writes_one_allowed_token envIdentical

/-- C5 counterexample: with the reference snapshot missing from storage but a
stale current snapshot file still present, the gate stores the fetched data
as the new reference, reads the stale file as the current data, and proceeds
to the comparison — here writing `drift_detected`, not
`error: archivo_no_encontrado` as the claim requires for every run with a
missing reference snapshot. -/
theorem DriftDetection.missing_reference_with_stale_current_counterexample :
    envStaleCurrent.oldFile = none ∧
      DriftDetection.detectar_drift envStaleCurrent = ["drift_detected"] ∧
      ("drift_detected" : String) ≠ "error: archivo_no_encontrado" :=
  ⟨rfl, rfl, by decide⟩

/-- C5 (amended): when the reference snapshot exists and equals the fetched
current data and the report pipeline succeeds on that identical pair  — the
Evidently comparison of a frame with itself reports no drift — the gate
writes `no_drift`; and when the reference snapshot is missing and no current
snapshot file exists either, the gate writes `error: archivo_no_encontrado`. -/
theorem DriftDetection.no_drift_on_identical_and_archivo_on_fresh_store
    {Data : Type} (env : DriftDetection.Env Data) (d : Data) :
    (env.fetch = .ok d → env.oldFile = some d →
      env.runReport (env.dropOutcome d) (env.dropOutcome d) = .ok (.ok false) →
      DriftDetection.detectar_drift env = ["no_drift"])
    ∧ (env.fetch = .ok d → env.oldFile = none → env.newFile = none →
      DriftDetection.detectar_drift env = ["error: archivo_no_encontrado"]) := by
  obtain ⟨fetch, oldFile, newFile, dropOutcome, runReport⟩ := env
  constructor
  · intro hf ho hr
    subst hf
    subst ho
    dsimp only at hr
    simp [DriftDetection.detectar_drift, hr]
  · intro hf ho hn
    subst hf
    subst ho
    subst hn
    simp [DriftDetection.detectar_drift]

theorem DriftDetection.no_drift_and_archivo_witness :
    DriftDetection.detectar_drift envIdentical = ["no_drift"] ∧
      DriftDetection.detectar_drift envFreshStore
        = ["error: archivo_no_encontrado"] :=
  ⟨(DriftDetection.no_drift_on_identical_and_archivo_on_fresh_store
      envIdentical 0).1 rfl rfl rfl,
    (DriftDetection.no_drift_on_identical_and_archivo_on_fresh_store
      envFreshStore 0).2 rfl rfl rfl⟩

/-! ## Claims about the association-rule lookup -/

/-- C6 counterexample: two rules with antecedent `{5}` and equal lift are
discovered in the order `5 → 7`, `5 → 8`.  The claim's ranking — descending
lift with ties kept in discovery order — selects `5 → 7` for `n = 1` and
answers `[7]`; the code's ranking (pandas reverses a stable ascending
argsort for `ascending=False`) selects `5 → 8` and answers `[8]`. -/
theorem BasketApi.tie_break_defies_discovery_order :
    BasketApi.recommend_association_rules 5 tiedRules 1 = [8] ∧
      BasketApi.claimStableLookup 5 tiedRules 1 = [7] ∧
      ([8] : List Nat) ≠ [7] := by
  refine ⟨?_, ?_, by decide⟩ <;> with_unfolding_all decide

/-- C6 (amended): the association-rule lookup selects exactly the rules whose
antecedent set contains the product, ranks them in a permutation of the
selection that is sorted descending by lift — with ties broken by the
library's deterministic order, the reverse of a stable ascending sort, not by
discovery order — takes the top `n`, flattens their consequents and
deduplicates discarding order (the result is duplicate-free and contains
exactly the consequent members of the top-`n` rules); if no rule matches, the
result is the empty list and not an error. -/
theorem BasketApi.recommend_association_rules_spec (stockcode : Nat)
    (rules : List Mlxtend.Rule) (n : Nat) :
    List.Perm (BasketApi.sort_values_lift_desc
        (BasketApi.matchedRules stockcode rules))
      (BasketApi.matchedRules stockcode rules)
    ∧ List.Sorted (fun a b : Mlxtend.Rule => b.lift ≤ a.lift)
      (BasketApi.sort_values_lift_desc (BasketApi.matchedRules stockcode rules))
    ∧ (∀ x, x ∈ BasketApi.recommend_association_rules stockcode rules n ↔
        ∃ r, r ∈ (BasketApi.sort_values_lift_desc
          (BasketApi.matchedRules stockcode rules)).take n ∧ x ∈ r.consequents)
    ∧ (BasketApi.recommend_association_rules stockcode rules n).Nodup
    ∧ (∀ r ∈ (BasketApi.sort_values_lift_desc
        (BasketApi.matchedRules stockcode rules)).take n,
        stockcode ∈ r.antecedents ∧ r ∈ rules)
    ∧ (BasketApi.matchedRules stockcode rules = [] →
        BasketApi.recommend_association_rules stockcode rules n = []) := by
  have hre : BasketApi.recommend_association_rules stockcode rules n =
      ((((BasketApi.sort_values_lift_desc
        (BasketApi.matchedRules stockcode rules)).take n).map
          (·.consequents)).foldr (· ++ ·) []).dedup := rfl
  have hperm : List.Perm (BasketApi.sort_values_lift_desc
      (BasketApi.matchedRules stockcode rules))
      (BasketApi.matchedRules stockcode rules) :=
    (List.reverse_perm _).trans (List.perm_insertionSort _ _)
  refine ⟨hperm, ?_, ?_, ?_, ?_, ?_⟩
  · haveI : IsTotal Mlxtend.Rule (fun a b : Mlxtend.Rule => a.lift ≤ b.lift) :=
      ⟨fun a b => le_total _ _⟩
    haveI : IsTrans Mlxtend.Rule (fun a b : Mlxtend.Rule => a.lift ≤ b.lift) :=
      ⟨fun _ _ _ hab hbc => le_trans hab hbc⟩
    exact List.pairwise_reverse.2
      (List.sorted_insertionSort (fun a b : Mlxtend.Rule => a.lift ≤ b.lift) _)
  · intro x
    rw [hre, List.mem_dedup, mem_foldr_append]
    constructor
    · rintro ⟨lc, hlc, hx⟩
      obtain ⟨r, hr, rfl⟩ := List.mem_map.1 hlc
      exact ⟨r, hr, hx⟩
    · rintro ⟨r, hr, hx⟩
      exact ⟨r.consequents, List.mem_map.2 ⟨r, hr, rfl⟩, hx⟩
  · rw [hre]
    exact List.nodup_dedup _
  · intro r hr
    have hm : r ∈ BasketApi.matchedRules stockcode rules :=
      hperm.subset ((List.take_sublist _ _).subset hr)
    obtain ⟨hrules, hdec⟩ := List.mem_filter.1 hm
    exact ⟨of_decide_eq_true hdec, hrules⟩
  · intro hM
    rw [hre, hM]
    simp [BasketApi.sort_values_lift_desc]

theorem BasketApi.recommend_association_rules_spec_witness :
    BasketApi.recommend_association_rules 9 tiedRules 2 = [] :=
  (BasketApi.recommend_association_rules_spec 9 tiedRules 2).2.2.2.2.2
    (by decide)

/-- C10: when every loaded rule has antecedents disjoint from consequents,
the association-rule lookup for a product never returns that product itself,
for every count `n`. -/
theorem BasketApi.recommend_association_rules_excludes_self (stockcode n : Nat)
    (rules : List Mlxtend.Rule)
    (hdisj : ∀ r ∈ rules, ∀ x ∈ r.antecedents, x ∉ r.consequents) :
    stockcode ∉ BasketApi.recommend_association_rules stockcode rules n := by
  intro hmem
  have hre : BasketApi.recommend_association_rules stockcode rules n =
      ((((BasketApi.sort_values_lift_desc
        (BasketApi.matchedRules stockcode rules)).take n).map
          (·.consequents)).foldr (· ++ ·) []).dedup := rfl
  rw [hre, List.mem_dedup, mem_foldr_append] at hmem
  obtain ⟨lc, hlc, hx⟩ := hmem
  obtain ⟨r, hr, rfl⟩ := List.mem_map.1 hlc
  have hm : r ∈ BasketApi.matchedRules stockcode rules :=
    (((List.reverse_perm _).trans (List.perm_insertionSort _ _)).subset
      ((List.take_sublist _ _).subset hr))
  obtain ⟨hrules, hdec⟩ := List.mem_filter.1 hm
  exact hdisj r hrules stockcode (of_decide_eq_true hdec) hx

theorem BasketApi.recommend_association_rules_excludes_self_witness :
    5 ∉ BasketApi.recommend_association_rules 5 tiedRules 1 :=
  BasketApi.recommend_association_rules_excludes_self 5 1 tiedRules (by decide)

/-! ## Claims about the two training pipelines -/

theorem countP_congr_mem {α : Type} (l : List α) (p q : α → Bool)
    (h : ∀ a ∈ l, p a = q a) : l.countP p = l.countP q := by
  induction l with
  | nil => rfl
  | cons x xs ih =>
    simp [List.countP_cons, h x (List.mem_cons_self x xs),
      ih (fun a ha => h a (List.mem_cons_of_mem _ ha))]

theorem all_congr_mem {α : Type} (S : List α) (f g : α → Bool)
    (h : ∀ c ∈ S, f c = g c) : S.all f = S.all g := by
  induction S with
  | nil => rfl
  | cons c cs ih =>
    simp only [List.all_cons, h c (List.mem_cons_self c cs),
      ih (fun a ha => h a (List.mem_cons_of_mem _ ha))]

theorem basket_cells_agree (rows : List TransactionRow)
    (h : ∀ inv ∈ invoicesOf rows, ∀ code ∈ stockcodesOf rows,
      0 ≤ groupSum rows inv code) :
    ∀ inv ∈ invoicesOf rows, ∀ code ∈ stockcodesOf rows,
      (BasketAnalysis.basket rows).cell inv code =
        (BasketModularized.transform_to_basket rows).cell inv code := by
  intro inv hinv code hcode
  show decide (0 < groupSum rows inv code) = decide (groupSum rows inv code ≠ 0)
  exact decide_eq_decide.2 (by have := h inv hinv code hcode; omega)

theorem support_agree (rows : List TransactionRow)
    (h : ∀ inv ∈ invoicesOf rows, ∀ code ∈ stockcodesOf rows,
      0 ≤ groupSum rows inv code)
    (S : List Nat) (hS : ∀ c ∈ S, c ∈ stockcodesOf rows) :
    Mlxtend.support (BasketAnalysis.basket rows) S =
      Mlxtend.support (BasketModularized.transform_to_basket rows) S := by
  unfold Mlxtend.support
  have hn : (invoicesOf rows).countP
      (fun inv => S.all (fun c => (BasketAnalysis.basket rows).cell inv c)) =
      (invoicesOf rows).countP
      (fun inv => S.all
        (fun c => (BasketModularized.transform_to_basket rows).cell inv c)) :=
    countP_congr_mem _ _ _ (fun inv hinv =>
      all_congr_mem S _ _ (fun c hc =>
        basket_cells_agree rows h inv hinv c (hS c hc)))
  show ((invoicesOf rows).countP _ : ℚ) / ((invoicesOf rows).length : ℚ) =
    ((invoicesOf rows).countP _ : ℚ) / ((invoicesOf rows).length : ℚ)
  rw [hn]

/-- C7 counterexample: on a single line row with quantity `-1` the two basket
builders disagree — the analysis pipeline (sum > 0) finds no frequent
itemset, the modularized pipeline (sum ≠ 0) finds `{0}` with support `1` — so
the pipelines' frequent-itemset collections differ for the same transaction
collection and the same default support threshold `0.01`. -/
theorem pipelines_differ_on_negative_quantity :
    Mlxtend.fpgrowth (BasketAnalysis.basket negativeRow) (1/100) ≠
      Mlxtend.fpgrowth (BasketModularized.transform_to_basket negativeRow)
        (1/100) := by
  with_unfolding_all decide

/-- C7 (amended): for every transaction collection whose per-(invoice,
product) summed quantities are all non-negative — in particular whenever no
quantity is negative — the plain and the modularized training pipelines
produce the same frequent ItemSet collection and the same AssociationRule
collection for the same support threshold. -/
theorem pipelines_agree_on_nonneg_sums (rows : List TransactionRow)
    (minSup thr : ℚ)
    (h : ∀ inv ∈ invoicesOf rows, ∀ code ∈ stockcodesOf rows,
      0 ≤ groupSum rows inv code) :
    Mlxtend.fpgrowth (BasketAnalysis.basket rows) minSup =
      Mlxtend.fpgrowth (BasketModularized.transform_to_basket rows) minSup
    ∧ Mlxtend.association_rules
        (Mlxtend.fpgrowth (BasketAnalysis.basket rows) minSup) thr =
      BasketModularized.generate_association_rules
        (Mlxtend.fpgrowth (BasketModularized.transform_to_basket rows) minSup)
        thr := by
  have hfp : Mlxtend.fpgrowth (BasketAnalysis.basket rows) minSup =
      Mlxtend.fpgrowth (BasketModularized.transform_to_basket rows) minSup := by
    unfold Mlxtend.fpgrowth
    have hfil : (stockcodesOf rows).sublists.filter
        (fun S => !S.isEmpty &&
          decide (minSup ≤ Mlxtend.support (BasketAnalysis.basket rows) S)) =
        (stockcodesOf rows).sublists.filter
        (fun S => !S.isEmpty &&
          decide (minSup ≤
            Mlxtend.support (BasketModularized.transform_to_basket rows) S)) :=
      List.filter_congr (fun S hS => by
        rw [support_agree rows h S
          (fun c hc => (List.mem_sublists.1 hS).subset hc)])
    show ((stockcodesOf rows).sublists.filter _).map _ =
      ((stockcodesOf rows).sublists.filter _).map _
    rw [hfil]
    exact List.map_congr_left (fun S hS => by
      rw [support_agree rows h S
        (fun c hc =>
          (List.mem_sublists.1 (List.mem_of_mem_filter hS)).subset hc)])
  exact ⟨hfp, by rw [BasketModularized.generate_association_rules, hfp]⟩

theorem pipelines_agree_on_nonneg_sums_witness :
    Mlxtend.fpgrowth (BasketAnalysis.basket pairRows) (1/100) =
      Mlxtend.fpgrowth (BasketModularized.transform_to_basket pairRows) (1/100)
    ∧ Mlxtend.association_rules
        (Mlxtend.fpgrowth (BasketAnalysis.basket pairRows) (1/100)) 1 =
      BasketModularized.generate_association_rules
        (Mlxtend.fpgrowth
          (BasketModularized.transform_to_basket pairRows) (1/100)) 1 :=
  pipelines_agree_on_nonneg_sums pairRows (1/100) 1 (by decide)

/-! ## Claims about the mined association rules -/

theorem Mlxtend.support_nonneg (b : Mlxtend.Basket) (S : List Nat) :
    0 ≤ Mlxtend.support b S :=
  div_nonneg (Nat.cast_nonneg _) (Nat.cast_nonneg _)

theorem Mlxtend.support_mono (b : Mlxtend.Basket) {A S : List Nat}
    (hAS : A ⊆ S) : Mlxtend.support b S ≤ Mlxtend.support b A := by
  have hc : b.invoices.countP (fun inv => S.all (fun c => b.cell inv c)) ≤
      b.invoices.countP (fun inv => A.all (fun c => b.cell inv c)) :=
    List.countP_mono_left (fun inv _ hall => by
      rw [List.all_eq_true] at hall ⊢
      exact fun c hcA => hall c (hAS hcA))
  unfold Mlxtend.support
  rcases Nat.eq_zero_or_pos b.invoices.length with h0 | hpos
  · simp [h0]
  · exact (div_le_div_iff_of_pos_right (by exact_mod_cast hpos)).2
      (by exact_mod_cast hc)

theorem Mlxtend.fpgrowth_mem_spec {b : Mlxtend.Basket} {minSup : ℚ}
    {p : List Nat × ℚ} (hp : p ∈ Mlxtend.fpgrowth b minSup) :
    List.Sublist p.1 b.items ∧ p.1 ≠ [] ∧ p.2 = Mlxtend.support b p.1 ∧
      minSup ≤ Mlxtend.support b p.1 := by
  unfold Mlxtend.fpgrowth at hp
  obtain ⟨S, hSf, rfl⟩ := List.mem_map.1 hp
  obtain ⟨hSsub, hcond⟩ := List.mem_filter.1 hSf
  rw [Bool.and_eq_true] at hcond
  exact ⟨List.mem_sublists.1 hSsub, by simpa using hcond.1, rfl,
    of_decide_eq_true hcond.2⟩

theorem Mlxtend.lookupSupport_cases (b : Mlxtend.Basket) (minSup : ℚ)
    (A : List Nat) :
    Mlxtend.lookupSupport (Mlxtend.fpgrowth b minSup) A = 0 ∨
      Mlxtend.lookupSupport (Mlxtend.fpgrowth b minSup) A =
        Mlxtend.support b A := by
  unfold Mlxtend.lookupSupport
  cases hf : (Mlxtend.fpgrowth b minSup).find? (fun p => p.1 == A) with
  | none => left; rfl
  | some q =>
    right
    have hqA : q.1 = A := by simpa using List.find?_some hf
    have hspec := Mlxtend.fpgrowth_mem_spec (List.mem_of_find?_eq_some hf)
    show q.2 = Mlxtend.support b A
    rw [hspec.2.2.1, hqA]

theorem Mlxtend.lookupSupport_nonneg (b : Mlxtend.Basket) (minSup : ℚ)
    (A : List Nat) :
    0 ≤ Mlxtend.lookupSupport (Mlxtend.fpgrowth b minSup) A := by
  rcases Mlxtend.lookupSupport_cases b minSup A with h | h
  · rw [h]
  · rw [h]
    exact Mlxtend.support_nonneg _ _

/-- C8: every rule mined from a basket table with duplicate-free columns has
disjoint, non-empty antecedents and consequents, confidence in `[0, 1]` and
non-negative lift; and under the repository's retention configuration
(metric = lift, threshold ≥ 1) every retained rule has lift ≥ 1. -/
theorem Mlxtend.association_rules_invariants (b : Mlxtend.Basket)
    (minSup thr : ℚ) (hitems : b.items.Nodup) (hthr : 1 ≤ thr)
    (r : Mlxtend.Rule)
    (hr : r ∈ Mlxtend.association_rules (Mlxtend.fpgrowth b minSup) thr) :
    (∀ x ∈ r.antecedents, x ∉ r.consequents)
    ∧ r.antecedents ≠ [] ∧ r.consequents ≠ []
    ∧ 0 ≤ r.confidence ∧ r.confidence ≤ 1
    ∧ 0 ≤ r.lift ∧ 1 ≤ r.lift := by
  unfold Mlxtend.association_rules at hr
  rw [mem_foldr_append] at hr
  obtain ⟨L, hL, hrL⟩ := hr
  obtain ⟨p, hp, rfl⟩ := List.mem_map.1 hL
  obtain ⟨hpsub, hpne, hpsup, hpmin⟩ := Mlxtend.fpgrowth_mem_spec hp
  simp only [Mlxtend.rulesOfItemset] at hrL
  obtain ⟨A, hAf, hAr⟩ := List.mem_filterMap.1 hrL
  obtain ⟨hAsubl, hAcond⟩ := List.mem_filter.1 hAf
  rw [Bool.and_eq_true] at hAcond
  have hAne : A ≠ [] := by simpa using hAcond.1
  have hAneS : A ≠ p.1 := by simpa using hAcond.2
  have hAsub : List.Sublist A p.1 := List.mem_sublists.1 hAsubl
  by_cases hif : thr ≤
      p.2 / Mlxtend.lookupSupport (Mlxtend.fpgrowth b minSup) A /
        Mlxtend.lookupSupport (Mlxtend.fpgrowth b minSup)
          (p.1.filter (fun c => !(A.contains c)))
  · rw [if_pos hif] at hAr
    obtain rfl := Option.some.inj hAr
    have hconf0 : 0 ≤ p.2 / Mlxtend.lookupSupport (Mlxtend.fpgrowth b minSup) A := by
      rw [hpsup]
      exact div_nonneg (Mlxtend.support_nonneg _ _)
        (Mlxtend.lookupSupport_nonneg _ _ _)
    have hconf1 : p.2 / Mlxtend.lookupSupport (Mlxtend.fpgrowth b minSup) A ≤ 1 := by
      rcases Mlxtend.lookupSupport_cases b minSup A with h0 | hA
      · rw [h0]
        simp
      · rw [hA, hpsup]
        rcases eq_or_lt_of_le (Mlxtend.support_nonneg b A) with hA0 | hApos
        · rw [← hA0]
          simp
        · rw [div_le_one hApos]
          exact Mlxtend.support_mono b hAsub.subset
    refine ⟨?_, hAne, ?_, hconf0, hconf1,
      div_nonneg hconf0 (Mlxtend.lookupSupport_nonneg _ _ _),
      le_trans hthr hif⟩
    · intro x hx hxC
      exact absurd hx (by simpa using (List.mem_filter.1 hxC).2)
    · intro hC0
      have hC0f : p.1.filter (fun c => !(A.contains c)) = [] := hC0
      have hSsubA : p.1 ⊆ A := by
        intro c hcS
        by_contra hcA
        have hcC : c ∈ p.1.filter (fun c => !(A.contains c)) :=
          List.mem_filter.2 ⟨hcS, by simpa using hcA⟩
        rw [hC0f] at hcC
        cases hcC
      have hSnodup : p.1.Nodup := hitems.sublist hpsub
      exact hAneS (hAsub.eq_of_length
        (le_antisymm hAsub.length_le (hSnodup.subperm hSsubA).length_le))
  · rw [if_neg hif] at hAr
    cases hAr

theorem Mlxtend.association_rules_invariants_witness :
    (∀ x ∈ (⟨[0], [1], 1, 1, 1⟩ : Mlxtend.Rule).antecedents,
      x ∉ (⟨[0], [1], 1, 1, 1⟩ : Mlxtend.Rule).consequents)
    ∧ (⟨[0], [1], 1, 1, 1⟩ : Mlxtend.Rule).antecedents ≠ []
    ∧ (⟨[0], [1], 1, 1, 1⟩ : Mlxtend.Rule).consequents ≠ []
    ∧ 0 ≤ (⟨[0], [1], 1, 1, 1⟩ : Mlxtend.Rule).confidence
    ∧ (⟨[0], [1], 1, 1, 1⟩ : Mlxtend.Rule).confidence ≤ 1
    ∧ 0 ≤ (⟨[0], [1], 1, 1, 1⟩ : Mlxtend.Rule).lift
    ∧ 1 ≤ (⟨[0], [1], 1, 1, 1⟩ : Mlxtend.Rule).lift :=
  Mlxtend.association_rules_invariants
    (BasketModularized.transform_to_basket pairRows) (1/100) 1
    (by decide) (le_refl 1) ⟨[0], [1], 1, 1, 1⟩
    (by with_unfolding_all decide)

/-! ## Supporting facts for the similarity model

The first half of the diagonal property — `sim(i,i)` is the maximum of row
`i` — does hold for every trained matrix (Cauchy–Schwarz); the slip behind
`MainApi.recommend_returns_self_on_tied_columns` is only that the slice
`[1:n+1]` drops the head of the sorted list instead of the self entry. -/

theorem intCauchySchwarzStep (x y s a c : ℤ) (hx : 0 ≤ x) (hy : 0 ≤ y)
    (hs : 0 ≤ s) (ha : 0 ≤ a) (hc : 0 ≤ c) (ih : s ^ 2 ≤ a * c) :
    (x * y + s) ^ 2 ≤ (x * x + a) * (y * y + c) := by
  have h4 : (2 * (x * y) * s) ^ 2 ≤ (x ^ 2 * c + a * y ^ 2) ^ 2 := by
    nlinarith [ih, sq_nonneg (x ^ 2 * c - a * y ^ 2), sq_nonneg (x * y),
      mul_nonneg (mul_nonneg hx hy) hs]
  have h5 : 0 ≤ 2 * (x * y) * s := by positivity
  have h6 : 0 ≤ x ^ 2 * c + a * y ^ 2 := by positivity
  have h7 : 2 * (x * y) * s ≤ x ^ 2 * c + a * y ^ 2 := by
    nlinarith [h4, h5, h6]
  nlinarith [ih, h7]

theorem Training.dotNat_sq_le (a b : List Nat) :
    Training.dotNat a b ^ 2 ≤ Training.dotNat a a * Training.dotNat b b := by
  induction a generalizing b with
  | nil => simp [Training.dotNat]
  | cons x a ih =>
    cases b with
    | nil => simp [Training.dotNat]
    | cons y b =>
      have hxy : Training.dotNat (x :: a) (y :: b) =
          x * y + Training.dotNat a b := rfl
      have hxx : Training.dotNat (x :: a) (x :: a) =
          x * x + Training.dotNat a a := rfl
      have hyy : Training.dotNat (y :: b) (y :: b) =
          y * y + Training.dotNat b b := rfl
      rw [hxy, hxx, hyy]
      have ihb := ih b
      zify at ihb ⊢
      exact intCauchySchwarzStep _ _ _ _ _ (Int.natCast_nonneg x)
        (Int.natCast_nonneg y) (Int.natCast_nonneg _) (Int.natCast_nonneg _)
        (Int.natCast_nonneg _) ihb

/-- Diagonal dominance of the cosine order: in row `p` of the trained
similarity matrix the self-score is not below the score of any column `j` —
the first half of the spec's diagonal property holds. -/
theorem Training.scoreGe_self_max (rows : List TransactionRow) (p j : Nat) :
    Training.scoreGe rows p p j := by
  show Training.dpi rows p j ^ 2 * Training.dpi rows p p ≤
    Training.dpi rows p p ^ 2 * Training.dpi rows j j
  have hcs : Training.dpi rows p j ^ 2 ≤
      Training.dpi rows p p * Training.dpi rows j j :=
    Training.dotNat_sq_le _ _
  calc Training.dpi rows p j ^ 2 * Training.dpi rows p p
      ≤ Training.dpi rows p p * Training.dpi rows j j *
        Training.dpi rows p p := Nat.mul_le_mul_right _ hcs
    _ = Training.dpi rows p p ^ 2 * Training.dpi rows j j := by ring
